import Mathlib

/-!
# Mimir persistence layer: projects and sessions over the encrypted store

A shallow embedding of `internal/database/db.go`,
`internal/projects/repositories/project_repository.go`,
`internal/sessions/repositories/session_repository.go`, the two model files and
`Validate` / `DefaultConfig` of `internal/config/config.go`.

The repositories are parameter-bound SQL statements.  The embedding keeps the
three tables declared by `DB.Migrate` as lists of typed rows (in insertion
order) and gives every statement the repositories issue its SQLite meaning
under the declared schema:

* `id TEXT PRIMARY KEY` and `name TEXT NOT NULL UNIQUE` reject an INSERT or
  UPDATE that would duplicate the key;
* the only FOREIGN KEY clause is `worktrees.session_id REFERENCES sessions(id)
  ON DELETE CASCADE` (foreign keys are switched on by `Init`); the sessions
  table declares none;
* `ORDER BY created_at DESC` is a stable descending sort (the order among equal
  keys is left open by SQL; the theorems never depend on it).

Everything the environment supplies is an explicit argument: the identifier
returned by `uuid.New().String()`, each reading of `time.Now()`, and the
failure of the connection itself (`DB.fault`).

Modelling assumptions, all on the side of the database driver:

* the repositories bind Go strings and integers only, so no column ever holds
  NULL and rows are typed records;
* timestamp columns hold the INTEGER written by `Time.Unix()`; the driver hands
  such a column to `Scan` as an int64, which `database/sql` cannot store into
  the `time.Time` field it is scanned into, so `Scan` of a row fails;
* identifiers and names are compared as `=` compares TEXT (byte equality).

`Init` is modelled by the calls it makes on the operating system and the
driver, in order, with the home directory and the failure of each call supplied
by the surroundings.
-/

namespace Mimir

/-! ## time.Time -/

/-- A wall-clock instant as `time.Time` keeps it: seconds since
January 1, year 1 (UTC) and nanoseconds within the second. -/
structure Time where
  sec : Int
  nsec : Nat
deriving DecidableEq, Repr

/-- Seconds between January 1, year 1 and January 1, 1970. -/
def unixToInternal : Int := 62135596800

/-- The zero value of `time.Time`. -/
def Time.zero : Time := ⟨0, 0⟩

/-- Method `IsZero`: the instant is January 1, year 1, 00:00:00 UTC. -/
def Time.IsZero (t : Time) : Bool := t.sec == 0 && t.nsec == 0

/-- Method `Unix`: seconds since January 1, 1970 (the nanoseconds are dropped). -/
def Time.Unix (t : Time) : Int := t.sec - unixToInternal

/-- The instant `time.Unix(u, 0)`. -/
def Time.ofUnix (u : Int) : Time := ⟨u + unixToInternal, 0⟩

/-! ## Models -/

/-- Struct `Project` of `internal/projects/models`. -/
structure Project where
  ID : String
  Name : String
  Path : String
  opencodePort : Int
  ProjectType : String
  CreatedAt : Time
  UpdatedAt : Time
deriving DecidableEq, Repr

/-- Struct `Session` of `internal/sessions/models`. -/
structure Session where
  ID : String
  ProjectID : String
  AgentType : String
  WorktreePath : String
  BranchName : String
  Status : String
  Metadata : String
  CreatedAt : Time
  UpdatedAt : Time
deriving DecidableEq, Repr

/-- Session status constants. -/
def StatusCreated : String := "created"
def StatusActive : String := "active"
def StatusCompleted : String := "completed"
def StatusError : String := "error"
def StatusCancelled : String := "cancelled"

/-- The five status constants of `internal/sessions/models/session.go`. -/
def sessionStatuses : List String :=
  [StatusCreated, StatusActive, StatusCompleted, StatusError, StatusCancelled]

/-! ## The store -/

/-- A row of table `projects`. -/
structure ProjectRow where
  id : String
  name : String
  path : String
  opencode_port : Int
  project_type : String
  created_at : Int
  updated_at : Int
deriving DecidableEq, Repr

/-- A row of table `sessions`. -/
structure SessionRow where
  id : String
  project_id : String
  agent_type : String
  worktree_path : String
  branch_name : String
  status : String
  metadata : String
  created_at : Int
  updated_at : Int
deriving DecidableEq, Repr

/-- A row of table `worktrees`. -/
structure WorktreeRow where
  id : String
  session_id : String
  path : String
  branch_name : String
  status : String
  created_at : Int
  deleted_at : Option Int
deriving DecidableEq, Repr

/-- Errors the repositories see or return. -/
inductive Error where
  | ErrNoRows
  | constraint (msg : String)
  | store (msg : String)
  | wrap (context : String) (cause : Error)
  | errorf (msg : String)
  | scan (index : Nat) (column driverType target : String)
deriving DecidableEq, Repr

/-- The handle `DB`: the connection and the three tables behind it.
`fault` is set when the connection itself fails (closed handle, I/O error,
lock wait exhausted); every statement then returns that failure. -/
structure DB where
  fault : Option String
  sessions : List SessionRow
  projects : List ProjectRow
  worktrees : List WorktreeRow
deriving DecidableEq, Repr

/-- A working connection to a store that holds no rows. -/
def DB.fresh : DB := ⟨none, [], [], []⟩

/-- Method `DB.Migrate`: six `CREATE ... IF NOT EXISTS` statements.  They keep
every existing row; the first one fails when the connection does. -/
def DB.Migrate (db : DB) : DB × Option Error :=
  match db.fault with
  | some e => (db, some (.wrap "failed to create sessions table" (.store e)))
  | none => (db, none)

/-! ### Statements on `projects` -/

/-- Statement `INSERT INTO projects (...) VALUES (...)`. -/
def DB.insertProject (db : DB) (row : ProjectRow) : DB × Option Error :=
  match db.fault with
  | some e => (db, some (.store e))
  | none =>
    if db.projects.any (fun r => decide (r.id = row.id)) then
      (db, some (.constraint "UNIQUE constraint failed: projects.id"))
    else if db.projects.any (fun r => decide (r.name = row.name)) then
      (db, some (.constraint "UNIQUE constraint failed: projects.name"))
    else
      ({ db with projects := db.projects ++ [row] }, none)

/-- Statement `SELECT ... FROM projects WHERE <column> = ?` run by `QueryRow`:
the first matching row; `Scan` reports `ErrNoRows` when none matches. -/
def DB.queryProjectRow (db : DB) (p : ProjectRow → Bool) : Except Error ProjectRow :=
  match db.fault with
  | some e => .error (.store e)
  | none =>
    match db.projects.find? p with
    | some row => .ok row
    | none => .error .ErrNoRows

/-- Clause `ORDER BY created_at DESC` on project rows. -/
def orderProjects (rows : List ProjectRow) : List ProjectRow :=
  rows.insertionSort (fun a b => a.created_at ≥ b.created_at)

instance : IsTotal ProjectRow (fun a b => a.created_at ≥ b.created_at) :=
  ⟨fun a b => le_total b.created_at a.created_at⟩

instance : IsTrans ProjectRow (fun a b => a.created_at ≥ b.created_at) :=
  ⟨fun _ _ _ hab hbc => le_trans hbc hab⟩

/-- Statement `SELECT ... FROM projects ORDER BY created_at DESC`. -/
def DB.queryProjects (db : DB) : Except Error (List ProjectRow) :=
  match db.fault with
  | some e => .error (.store e)
  | none => .ok (orderProjects db.projects)

/-- Statement `UPDATE projects SET name = ?, path = ?, opencode_port = ?,
project_type = ?, updated_at = ? WHERE id = ?`. -/
def DB.updateProject (db : DB) (name path : String) (port : Int) (ptype : String)
    (updated : Int) (id : String) : DB × Option Error :=
  match db.fault with
  | some e => (db, some (.store e))
  | none =>
    if db.projects.any (fun r => decide (r.id = id)) &&
        db.projects.any (fun r => decide (r.id ≠ id) && decide (r.name = name)) then
      (db, some (.constraint "UNIQUE constraint failed: projects.name"))
    else
      ({ db with projects := db.projects.map (fun r =>
          if r.id = id then
            { r with name := name, path := path, opencode_port := port,
                     project_type := ptype, updated_at := updated }
          else r) }, none)

/-- Statement `DELETE FROM projects WHERE id = ?`.  No table references
`projects`, so nothing else is touched. -/
def DB.deleteProject (db : DB) (id : String) : DB × Option Error :=
  match db.fault with
  | some e => (db, some (.store e))
  | none => ({ db with projects := db.projects.filter (fun r => decide (r.id ≠ id)) }, none)

/-! ### Statements on `sessions` -/

/-- Statement `INSERT INTO sessions (...) VALUES (...)`.  The table has a
primary key and NOT NULL columns only. -/
def DB.insertSession (db : DB) (row : SessionRow) : DB × Option Error :=
  match db.fault with
  | some e => (db, some (.store e))
  | none =>
    if db.sessions.any (fun r => decide (r.id = row.id)) then
      (db, some (.constraint "UNIQUE constraint failed: sessions.id"))
    else
      ({ db with sessions := db.sessions ++ [row] }, none)

/-- Statement `SELECT ... FROM sessions WHERE id = ?` run by `QueryRow`. -/
def DB.querySessionRow (db : DB) (p : SessionRow → Bool) : Except Error SessionRow :=
  match db.fault with
  | some e => .error (.store e)
  | none =>
    match db.sessions.find? p with
    | some row => .ok row
    | none => .error .ErrNoRows

/-- Clause `ORDER BY created_at DESC` on session rows. -/
def orderSessions (rows : List SessionRow) : List SessionRow :=
  rows.insertionSort (fun a b => a.created_at ≥ b.created_at)

instance : IsTotal SessionRow (fun a b => a.created_at ≥ b.created_at) :=
  ⟨fun a b => le_total b.created_at a.created_at⟩

instance : IsTrans SessionRow (fun a b => a.created_at ≥ b.created_at) :=
  ⟨fun _ _ _ hab hbc => le_trans hbc hab⟩

/-- Statement `SELECT ... FROM sessions [WHERE project_id = ?] ORDER BY created_at DESC`. -/
def DB.querySessions (db : DB) (p : SessionRow → Bool) : Except Error (List SessionRow) :=
  match db.fault with
  | some e => .error (.store e)
  | none => .ok (orderSessions (db.sessions.filter p))

/-- Statement `UPDATE sessions SET status = ?, updated_at = ? WHERE id = ?`. -/
def DB.updateSessionStatus (db : DB) (status : String) (updated : Int) (id : String) :
    DB × Option Error :=
  match db.fault with
  | some e => (db, some (.store e))
  | none =>
    ({ db with sessions := db.sessions.map (fun r =>
        if r.id = id then { r with status := status, updated_at := updated } else r) }, none)

/-- Statement `DELETE FROM sessions WHERE id = ?`, with the cascade declared by
`worktrees.session_id REFERENCES sessions(id) ON DELETE CASCADE`. -/
def DB.deleteSession (db : DB) (id : String) : DB × Option Error :=
  match db.fault with
  | some e => (db, some (.store e))
  | none =>
    ({ db with
        sessions := db.sessions.filter (fun r => decide (r.id ≠ id)),
        worktrees :=
          if db.sessions.any (fun r => decide (r.id = id)) then
            db.worktrees.filter (fun w => decide (w.session_id ≠ id))
          else db.worktrees }, none)

/-! ## Scanning rows into models -/

/-- A column value as the SQLite driver hands it to `database/sql`.  A column
declared INTEGER arrives as an int64 and a column declared TEXT as a string;
the driver builds a `time.Time` only for a column declared timestamp, datetime
or date, and `DB.Migrate` declares none. -/
inductive DriverValue where
  | int64 (n : Int)
  | string (s : String)
deriving DecidableEq, Repr

/-- `Scan` into a `*time.Time` target.  `database/sql` stores there only a
driver value that is a `time.Time` already; an int64 or a string is refused
with `sql: Scan error on column index i, name c: unsupported Scan, storing
driver.Value type T into type *time.Time`, kept here as `Error.scan i c T`. -/
def scanTime (index : Nat) (column : String) : DriverValue → Except Error Time
  | .int64 _ => .error (.scan index column "int64" "*time.Time")
  | .string _ => .error (.scan index column "string" "*time.Time")

/-- The `Scan` call of the project queries: the string and int targets take
their columns as they are, then the two `time.Time` targets are filled from the
INTEGER columns `created_at` (index 5) and `updated_at` (index 6). -/
def scanProject (row : ProjectRow) : Except Error Project :=
  match scanTime 5 "created_at" (.int64 row.created_at) with
  | .error e => .error e
  | .ok createdAt =>
    match scanTime 6 "updated_at" (.int64 row.updated_at) with
    | .error e => .error e
    | .ok updatedAt =>
      .ok { ID := row.id, Name := row.name, Path := row.path,
            opencodePort := row.opencode_port, ProjectType := row.project_type,
            CreatedAt := createdAt, UpdatedAt := updatedAt }

/-- The `Scan` call of the session queries; `created_at` is column 7 and
`updated_at` column 8. -/
def scanSession (row : SessionRow) : Except Error Session :=
  match scanTime 7 "created_at" (.int64 row.created_at) with
  | .error e => .error e
  | .ok createdAt =>
    match scanTime 8 "updated_at" (.int64 row.updated_at) with
    | .error e => .error e
    | .ok updatedAt =>
      .ok { ID := row.id, ProjectID := row.project_id, AgentType := row.agent_type,
            WorktreePath := row.worktree_path, BranchName := row.branch_name,
            Status := row.status, Metadata := row.metadata,
            CreatedAt := createdAt, UpdatedAt := updatedAt }

/-- The loop `for rows.Next()` of the project list: every row is scanned and
appended; the first `Scan` error ends the loop. -/
def scanProjects : List ProjectRow → Except Error (List Project)
  | [] => .ok []
  | row :: rest =>
    match scanProject row with
    | .error e => .error e
    | .ok project =>
      match scanProjects rest with
      | .error e => .error e
      | .ok projects => .ok (project :: projects)

/-- The loop `for rows.Next()` of the session lists. -/
def scanSessions : List SessionRow → Except Error (List Session)
  | [] => .ok []
  | row :: rest =>
    match scanSession row with
    | .error e => .error e
    | .ok session =>
      match scanSessions rest with
      | .error e => .error e
      | .ok sessions => .ok (session :: sessions)

/-! ## ProjectRepository -/

namespace ProjectRepository

/-- Method `Create`.  `newID` is what `uuid.New().String()` returns, `t₁` and
`t₂` are the two readings of `time.Now()`.  The first component is the caller's
struct after the call (its identifier and timestamps are filled in). -/
def Create (db : DB) (project : Project) (newID : String) (t₁ t₂ : Time) :
    Project × DB × Option Error :=
  let project := if project.ID = "" then { project with ID := newID } else project
  let project := if project.CreatedAt.IsZero then { project with CreatedAt := t₁ } else project
  let project := { project with UpdatedAt := t₂ }
  let res := db.insertProject
    { id := project.ID, name := project.Name, path := project.Path,
      opencode_port := project.opencodePort, project_type := project.ProjectType,
      created_at := project.CreatedAt.Unix, updated_at := project.UpdatedAt.Unix }
  (project, res.1, res.2)

/-- Method `Get`. -/
def Get (db : DB) (id : String) : Option Project × Option Error :=
  match (db.queryProjectRow (fun r => decide (r.id = id))).bind scanProject with
  | .error err =>
    if err = Error.ErrNoRows then (none, none)
    else (none, some (.wrap "failed to get project" err))
  | .ok project => (some project, none)

/-- Method `GetByName`. -/
def GetByName (db : DB) (name : String) : Option Project × Option Error :=
  match (db.queryProjectRow (fun r => decide (r.name = name))).bind scanProject with
  | .error err =>
    if err = Error.ErrNoRows then (none, none)
    else (none, some (.wrap "failed to get project" err))
  | .ok project => (some project, none)

/-- Method `List`.  A nil slice is the empty list. -/
def List (db : DB) : List Project × Option Error :=
  match db.queryProjects with
  | .error err => ([], some (.wrap "failed to list projects" err))
  | .ok rows =>
    match scanProjects rows with
    | .error err => ([], some (.wrap "failed to scan project" err))
    | .ok projects => (projects, none)

/-- Method `Update`.  `now` is the reading of `time.Now()`. -/
def Update (db : DB) (project : Project) (now : Time) : DB × Option Error :=
  db.updateProject project.Name project.Path project.opencodePort project.ProjectType
    now.Unix project.ID

/-- Method `Delete`. -/
def Delete (db : DB) (id : String) : DB × Option Error :=
  db.deleteProject id

end ProjectRepository

/-! ## SessionRepository -/

namespace SessionRepository

/-- Method `Create`, with the same environment arguments as for projects. -/
def Create (db : DB) (session : Session) (newID : String) (t₁ t₂ : Time) :
    Session × DB × Option Error :=
  let session := if session.ID = "" then { session with ID := newID } else session
  let session := if session.CreatedAt.IsZero then { session with CreatedAt := t₁ } else session
  let session := { session with UpdatedAt := t₂ }
  let res := db.insertSession
    { id := session.ID, project_id := session.ProjectID, agent_type := session.AgentType,
      worktree_path := session.WorktreePath, branch_name := session.BranchName,
      status := session.Status, metadata := session.Metadata,
      created_at := session.CreatedAt.Unix, updated_at := session.UpdatedAt.Unix }
  (session, res.1, res.2)

/-- Method `Get`. -/
def Get (db : DB) (id : String) : Option Session × Option Error :=
  match (db.querySessionRow (fun r => decide (r.id = id))).bind scanSession with
  | .error err =>
    if err = Error.ErrNoRows then (none, none)
    else (none, some (.wrap "failed to get session" err))
  | .ok session => (some session, none)

/-- Method `UpdateStatus`.  `now` is the reading of `time.Now()`. -/
def UpdateStatus (db : DB) (id : String) (status : String) (now : Time) : DB × Option Error :=
  db.updateSessionStatus status now.Unix id

/-- Method `Delete`. -/
def Delete (db : DB) (id : String) : DB × Option Error :=
  db.deleteSession id

/-- Method `ListByProject`. -/
def ListByProject (db : DB) (projectID : String) : List Session × Option Error :=
  match db.querySessions (fun r => decide (r.project_id = projectID)) with
  | .error err => ([], some (.wrap "failed to list sessions for project" err))
  | .ok rows =>
    match scanSessions rows with
    | .error err => ([], some (.wrap "failed to scan session" err))
    | .ok sessions => (sessions, none)

/-- Method `List`. -/
def List (db : DB) : List Session × Option Error :=
  match db.querySessions (fun _ => true) with
  | .error err => ([], some (.wrap "failed to list sessions" err))
  | .ok rows =>
    match scanSessions rows with
    | .error err => ([], some (.wrap "failed to scan session" err))
    | .ok sessions => (sessions, none)

end SessionRepository

end Mimir

namespace Mimir

/-! ## Concrete stores and records used by the examples below -/

/-- Some instant in 2024 (Unix 1700000000), on a whole second. -/
def t2024 : Time := Time.ofUnix 1700000000

/-- A project record as a caller fills it in: no identifier, no timestamps. -/
def demoProject : Project :=
  { ID := "", Name := "demo", Path := "/tmp/demo", opencodePort := 4096, ProjectType := "",
    CreatedAt := Time.zero, UpdatedAt := Time.zero }

/-- A store that already holds one project, `alpha`, under identifier `p-1`. -/
def dbAlpha : DB :=
  { fault := none, sessions := [], worktrees := [],
    projects := [{ id := "p-1", name := "alpha", path := "/srv/alpha", opencode_port := 4096,
                   project_type := "go", created_at := 1700000000, updated_at := 1700000000 }] }

/-- A project with a new name that reuses the identifier `p-1`. -/
def betaReusingID : Project :=
  { ID := "p-1", Name := "beta", Path := "/srv/beta", opencodePort := 4097, ProjectType := "rust",
    CreatedAt := Time.zero, UpdatedAt := Time.zero }

/-- A project that reuses the name `alpha` under a new identifier. -/
def alphaAgain : Project :=
  { ID := "p-2", Name := "alpha", Path := "/srv/other", opencodePort := 4098, ProjectType := "",
    CreatedAt := Time.zero, UpdatedAt := Time.zero }

/-! ## Sequences of registrations -/

/-- One call of `ProjectRepository.Create`: the record passed in and what the
environment supplies during the call. -/
structure CreateCall where
  project : Project
  newID : String
  t₁ : Time
  t₂ : Time
deriving DecidableEq, Repr

/-- Method `Create` called once per request, in order: the final store and the
error value each call returned. -/
def createAll (db : DB) : List CreateCall → DB × List (Option Error)
  | [] => (db, [])
  | c :: cs =>
    let r := ProjectRepository.Create db c.project c.newID c.t₁ c.t₂
    let rest := createAll r.2.1 cs
    (rest.1, r.2.2 :: rest.2)

/-- Three registrations one second apart. -/
def spacedCalls : List CreateCall :=
  [ { project := { demoProject with Name := "a", CreatedAt := Time.ofUnix 1700000001 },
      newID := "u-1", t₁ := t2024, t₂ := t2024 },
    { project := { demoProject with Name := "b", CreatedAt := Time.ofUnix 1700000002 },
      newID := "u-2", t₁ := t2024, t₂ := t2024 },
    { project := { demoProject with Name := "c", CreatedAt := Time.ofUnix 1700000003 },
      newID := "u-3", t₁ := t2024, t₂ := t2024 } ]

/-- A store with one project and two of its sessions. -/
def dbTwoSessions : DB :=
  { fault := none, worktrees := [],
    projects := [{ id := "p-1", name := "alpha", path := "/srv/alpha", opencode_port := 4096,
                   project_type := "go", created_at := 1700000000, updated_at := 1700000000 }],
    sessions := [{ id := "s-1", project_id := "p-1", agent_type := "coder", worktree_path := "",
                   branch_name := "", status := "created", metadata := "",
                   created_at := 1700000010, updated_at := 1700000010 },
                 { id := "s-2", project_id := "p-1", agent_type := "reviewer",
                   worktree_path := "/wt/2", branch_name := "feature", status := "active",
                   metadata := "", created_at := 1700000020, updated_at := 1700000025 }] }

/-- The session of the scenario: agent `coder`, status `created`, owned by
project `pid`; identifier and timestamps left to Create. -/
def demoSession (pid : String) : Session :=
  { ID := "", ProjectID := pid, AgentType := "coder", WorktreePath := "", BranchName := "",
    Status := StatusCreated, Metadata := "", CreatedAt := Time.zero, UpdatedAt := Time.zero }

/-- A store with two projects, `alpha` (p-1) and `beta` (p-2). -/
def dbAlphaBeta : DB :=
  { fault := none, sessions := [], worktrees := [],
    projects := [{ id := "p-1", name := "alpha", path := "/srv/alpha", opencode_port := 4096,
                   project_type := "go", created_at := 1700000000, updated_at := 1700000000 },
                 { id := "p-2", name := "beta", path := "/srv/beta", opencode_port := 4097,
                   project_type := "rust", created_at := 1700000005,
                   updated_at := 1700000005 }] }

/-- An update of project p-1 that takes over the name of project p-2. -/
def renameAlphaToBeta : Project :=
  { ID := "p-1", Name := "beta", Path := "/srv/moved", opencodePort := 5000,
    ProjectType := "python", CreatedAt := Time.zero, UpdatedAt := Time.zero }

/-- An update of project p-1 that moves it and gives it an unused name. -/
def renameAlphaToGamma : Project :=
  { ID := "p-1", Name := "gamma", Path := "/srv/moved", opencodePort := 5000,
    ProjectType := "python", CreatedAt := Time.zero, UpdatedAt := Time.zero }

/-- The row an UPDATE leaves in place of `r` when called with `p` at `now`. -/
def overwriteRow (p : Project) (now : Time) (r : ProjectRow) : ProjectRow :=
  { id := r.id, name := p.Name, path := p.Path, opencode_port := p.opencodePort,
    project_type := p.ProjectType, created_at := r.created_at, updated_at := now.Unix }

/-- A session that names a project no store holds. -/
def ghostSession : Session :=
  { ID := "", ProjectID := "ghost", AgentType := "coder", WorktreePath := "", BranchName := "",
    Status := StatusCreated, Metadata := "", CreatedAt := Time.zero, UpdatedAt := Time.zero }

/-! ## Sequences of session operations -/

/-- One call on the session repository that writes. -/
inductive SessionOp where
  | create (session : Session) (newID : String) (t₁ t₂ : Time)
  | updateStatus (id status : String) (now : Time)
  | delete (id : String)
deriving DecidableEq, Repr

/-- The store after the call. -/
def SessionOp.apply (db : DB) : SessionOp → DB
  | .create session newID t₁ t₂ => (SessionRepository.Create db session newID t₁ t₂).2.1
  | .updateStatus id status now => (SessionRepository.UpdateStatus db id status now).1
  | .delete id => (SessionRepository.Delete db id).1

/-- The store after a sequence of calls. -/
def runSessionOps (db : DB) (ops : List SessionOp) : DB :=
  ops.foldl SessionOp.apply db

/-- The status value a call hands to the store, if any. -/
def SessionOp.status? : SessionOp → Option String
  | .create session _ _ _ => some session.Status
  | .updateStatus _ status _ => some status
  | .delete _ => none

/-- A session created with a status outside the five constants, and a stored
session moved to one. -/
def offListOps : List SessionOp :=
  [ .create { ghostSession with ID := "s-1", Status := "paused" } "u-1" t2024 t2024,
    .create { ghostSession with ID := "s-2" } "u-2" t2024 t2024,
    .updateStatus "s-2" "done" t2024 ]

/-- A session created, activated, completed, and another one created and deleted. -/
def lifecycleOps : List SessionOp :=
  [ .create { ghostSession with ID := "s-1" } "u-1" t2024 t2024,
    .updateStatus "s-1" StatusActive t2024,
    .create { ghostSession with ID := "s-2", Status := StatusError } "u-2" t2024 t2024,
    .updateStatus "s-1" StatusCompleted t2024,
    .delete "s-2" ]

/-! ## Project type constants -/

/-- Constant `TypeGo` of `internal/projects/models/project.go`. -/
def TypeGo : String := "golang"

/-- Constant `TypePython`. -/
def TypePython : String := "python"

/-- Constant `TypeTypeScript`. -/
def TypeTypeScript : String := "typescript"

/-- Constant `TypeRust`. -/
def TypeRust : String := "rust"

/-- Constant `TypeUnknown`. -/
def TypeUnknown : String := "unknown"

/-- The five project type constants, in the order of the const block. -/
def projectTypes : List String :=
  [TypeGo, TypePython, TypeTypeScript, TypeRust, TypeUnknown]

/-! ## Configuration (`internal/config/config.go`) -/

/-- Struct `ServerConfig`. -/
structure ServerConfig where
  HTTPPort : Int
  WSPort : Int
deriving DecidableEq, Repr

/-- Struct `DatabaseConfig`. -/
structure DatabaseConfig where
  Path : String
  EncryptionKey : String
deriving DecidableEq, Repr

/-- Struct `opencodeConfig`. -/
structure opencodeConfig where
  DefaultModel : String
deriving DecidableEq, Repr

/-- Struct `ProjectConfig`. -/
structure ProjectConfig where
  Name : String
  Path : String
  opencodePort : Int
deriving DecidableEq, Repr

/-- Struct `SentryProjectMap`. -/
structure SentryProjectMap where
  SentryProject : String
  MimirProject : String
deriving DecidableEq, Repr

/-- Struct `SentryWebhookConfig`. -/
structure SentryWebhookConfig where
  Secret : String
  Projects : List SentryProjectMap
deriving DecidableEq, Repr

/-- Struct `WebhooksConfig`. -/
structure WebhooksConfig where
  Sentry : SentryWebhookConfig
deriving DecidableEq, Repr

/-- Struct `CronJob`. -/
structure CronJob where
  Name : String
  Schedule : String
  Project : String
  Action : String
deriving DecidableEq, Repr

/-- Struct `Config`. -/
structure Config where
  Server : ServerConfig
  Database : DatabaseConfig
  opencode : opencodeConfig
  Projects : List ProjectConfig
  Webhooks : WebhooksConfig
  Cron : List CronJob
deriving DecidableEq, Repr

/-- Function `DefaultConfig`: the fields it does not name keep their zero value. -/
def DefaultConfig : Config :=
  { Server := { HTTPPort := 8080, WSPort := 8081 },
    Database := { Path := "~/.mimir/mimir.db", EncryptionKey := "" },
    opencode := { DefaultModel := "anthropic/claude-sonnet-4" },
    Projects := [],
    Webhooks := { Sentry := { Secret := "", Projects := [] } },
    Cron := [] }

/-- The loop of `Validate` over the configured projects: the first complaint. -/
def validateProjects : List ProjectConfig → Option Error
  | [] => none
  | project :: rest =>
    if project.Name = "" then some (.errorf "project name is required")
    else if project.Path = "" then some (.errorf "project path is required")
    else validateProjects rest

/-- Method `Config.Validate`: nil, or the first complaint. -/
def Config.Validate (c : Config) : Option Error :=
  if c.Server.HTTPPort ≤ 0 ∨ c.Server.HTTPPort > 65535 then
    some (.errorf ("invalid HTTP port: " ++ toString c.Server.HTTPPort))
  else if c.Server.WSPort ≤ 0 ∨ c.Server.WSPort > 65535 then
    some (.errorf ("invalid WebSocket port: " ++ toString c.Server.WSPort))
  else if c.Database.Path = "" then
    some (.errorf "database path is required")
  else
    validateProjects c.Projects

/-! ## Opening the store (`internal/database/db.go`) -/

/-- The test `len(path) > 0 && path[0] == c` for an ASCII byte `c`. -/
def startsWithByte (path : String) (c : Char) : Bool :=
  match path.data with
  | [] => false
  | b :: _ => b == c

/-- The slice `path[1:]` of a path whose first byte is ASCII. -/
def dropFirstByte (path : String) : String := String.mk (path.data.drop 1)

/-- The slice `path[:len(path)-1]`.  Bytes are characters here: exact when the
last character of the path is ASCII. -/
def dropLastByte (path : String) : String := String.mk path.data.dropLast

/-- A call `Init` makes on the operating system or the driver. -/
inductive Effect where
  | mkdirAll (dir : String)
  | sqlOpen (dsn : String)
  | exec (statement : String)
deriving DecidableEq, Repr

/-- What the surroundings answer: `homeDir` is the result of
`os.UserHomeDir()` (the directory, or the error), `fails` gives the error of a
call that does not succeed. -/
structure Env where
  homeDir : Except String String
  fails : Effect → Option String

/-- Function `expandPath`: a leading tilde becomes the home directory; the
path is returned as it is when the home directory cannot be determined. -/
def expandPath (env : Env) (path : String) : String :=
  if startsWithByte path '~' then
    match env.homeDir with
    | .error _ => path
    | .ok homeDir => homeDir ++ dropFirstByte path
  else path

/-- The outcome of `Init`: the calls made, in order, and either the path the
returned handle is opened on or the error. -/
structure InitOutcome where
  effects : List Effect
  result : Except Error String

/-- The tail of `Init`: open the database on `path` and set the three pragmas. -/
def Init.openAt (env : Env) (cfg : DatabaseConfig) (path : String)
    (done : List Effect) : InitOutcome :=
  let dsn := "file:" ++ path ++ "?_pragma_key=" ++ cfg.EncryptionKey
  let o := Effect.sqlOpen dsn
  match env.fails o with
  | some e => ⟨done ++ [o], .error (.wrap "failed to open database" (.errorf e))⟩
  | none =>
    let p₁ := Effect.exec "PRAGMA foreign_keys = ON"
    match env.fails p₁ with
    | some e => ⟨done ++ [o, p₁], .error (.wrap "failed to enable foreign keys" (.errorf e))⟩
    | none =>
      let p₂ := Effect.exec "PRAGMA journal_mode = WAL"
      match env.fails p₂ with
      | some e => ⟨done ++ [o, p₁, p₂], .error (.wrap "failed to enable WAL mode" (.errorf e))⟩
      | none =>
        let p₃ := Effect.exec "PRAGMA busy_timeout = 5000"
        match env.fails p₃ with
        | some e =>
          ⟨done ++ [o, p₁, p₂, p₃], .error (.wrap "failed to set busy timeout" (.errorf e))⟩
        | none => ⟨done ++ [o, p₁, p₂, p₃], .ok path⟩

/-- Function `Init`. -/
def Init (env : Env) (cfg : DatabaseConfig) : InitOutcome :=
  let path := expandPath env cfg.Path
  if startsWithByte path '/' then
    let dir := dropLastByte path
    match env.fails (.mkdirAll dir) with
    | some e =>
      ⟨[.mkdirAll dir], .error (.wrap "failed to create database directory" (.errorf e))⟩
    | none => Init.openAt env cfg path [.mkdirAll dir]
  else if startsWithByte path '~' then
    match env.homeDir with
    | .error e => ⟨[], .error (.wrap "failed to get home directory" (.errorf e))⟩
    | .ok homeDir =>
      let path := homeDir ++ dropFirstByte path
      match env.fails (.mkdirAll path) with
      | some e =>
        ⟨[.mkdirAll path], .error (.wrap "failed to create database directory" (.errorf e))⟩
      | none => Init.openAt env cfg path [.mkdirAll path]
  else Init.openAt env cfg path []

/-- The containing directory in the words of the claim: the path without its
final path segment (everything before the last slash). -/
def containingDir (path : String) : String :=
  String.mk ((path.data.reverse.dropWhile (fun c => c != '/')).drop 1).reverse

/-- Surroundings in which the home directory is `/home/u` and every call succeeds. -/
def envHomeU : Env := { homeDir := .ok "/home/u", fails := fun _ => none }

/-- The calls to `os.MkdirAll` among the calls made. -/
def mkdirCalls (effects : List Effect) : List String :=
  effects.filterMap (fun e => match e with
    | .mkdirAll dir => some dir
    | _ => none)

/-! ## Sequences of project operations -/

/-- One call on the project repository that writes. -/
inductive ProjectOp where
  | create (project : Project) (newID : String) (t₁ t₂ : Time)
  | update (project : Project) (now : Time)
  | delete (id : String)
deriving DecidableEq, Repr

/-- The store after the call. -/
def ProjectOp.apply (db : DB) : ProjectOp → DB
  | .create project newID t₁ t₂ => (ProjectRepository.Create db project newID t₁ t₂).2.1
  | .update project now => (ProjectRepository.Update db project now).1
  | .delete id => (ProjectRepository.Delete db id).1

/-- The store after a sequence of calls. -/
def runProjectOps (db : DB) (ops : List ProjectOp) : DB :=
  ops.foldl ProjectOp.apply db

/-- The path a call hands to the store, if any. -/
def ProjectOp.path? : ProjectOp → Option String
  | .create project _ _ _ => some project.Path
  | .update project _ => some project.Path
  | .delete _ => none

/-- A project registered without a path, and a stored project whose path is
updated to the empty string. -/
def emptyPathOps : List ProjectOp :=
  [ .create { demoProject with ID := "p-1", Name := "nowhere", Path := "" } "u-1" t2024 t2024,
    .create { demoProject with ID := "p-2" } "u-2" t2024 t2024,
    .update { demoProject with ID := "p-2", Path := "" } t2024 ]

/-- A project registered, moved, and another one registered and deleted. -/
def projectLifecycleOps : List ProjectOp :=
  [ .create { demoProject with ID := "p-1" } "u-1" t2024 t2024,
    .update { demoProject with ID := "p-1", Path := "/srv/demo" } t2024,
    .create { demoProject with ID := "p-2", Name := "other" } "u-2" t2024 t2024,
    .delete "p-2" ]

/-! ## Lookup lemmas -/

theorem find?_none_of_forall {α : Type} (p : α → Bool) (xs : List α)
    (hxs : ∀ r ∈ xs, p r = false) : xs.find? p = none := by
  induction xs with
  | nil => rfl
  | cons a as ih =>
    have ha : p a = false := hxs a (List.mem_cons_self _ _)
    simp [List.find?, ha, ih (fun r hr => hxs r (List.mem_cons_of_mem _ hr))]

theorem any_false_of_forall {α : Type} (p : α → Bool) (xs : List α)
    (hxs : ∀ r ∈ xs, p r = false) : xs.any p = false := by
  induction xs with
  | nil => rfl
  | cons a as ih =>
    have ha : p a = false := hxs a (List.mem_cons_self _ _)
    simp [List.any, ha, ih (fun r hr => hxs r (List.mem_cons_of_mem _ hr))]

/-! ## What a read returns once a row is found -/

theorem scanProject_fails (row : ProjectRow) :
    scanProject row = .error (.scan 5 "created_at" "int64" "*time.Time") := rfl

theorem scanSession_fails (row : SessionRow) :
    scanSession row = .error (.scan 7 "created_at" "int64" "*time.Time") := rfl

theorem scanProjects_cons (row : ProjectRow) (rest : List ProjectRow) :
    scanProjects (row :: rest) = .error (.scan 5 "created_at" "int64" "*time.Time") := rfl

theorem scanSessions_cons (row : SessionRow) (rest : List SessionRow) :
    scanSessions (row :: rest) = .error (.scan 7 "created_at" "int64" "*time.Time") := rfl

theorem find?_isSome_of_mem {α : Type} (p : α → Bool) (xs : List α)
    (h : ∃ r ∈ xs, p r = true) : ∃ row, xs.find? p = some row := by
  cases hf : xs.find? p with
  | some row => exact ⟨row, rfl⟩
  | none =>
    obtain ⟨r, hr, hp⟩ := h
    have := List.find?_eq_none.mp hf r hr
    simp [hp] at this

/-! ## C1 -/

/-- C1 on the code: registering `demo` in an empty store succeeds and stores
its row under the generated identifier, with the Name, Path, port and
ProjectType given; but the following Get of that identifier returns no record
and the error `failed to get project`, because Scan cannot store the INTEGER
column created_at into the time.Time field. -/
theorem c1_get_after_create_fails :
    (ProjectRepository.Create DB.fresh demoProject "u-1" t2024 t2024).2.2 = none ∧
    (ProjectRepository.Create DB.fresh demoProject "u-1" t2024 t2024).1.ID = "u-1" ∧
    (ProjectRepository.Create DB.fresh demoProject "u-1" t2024 t2024).2.1.projects =
      [{ id := "u-1", name := "demo", path := "/tmp/demo", opencode_port := 4096,
         project_type := "", created_at := 1700000000, updated_at := 1700000000 }] ∧
    ProjectRepository.Get (ProjectRepository.Create DB.fresh demoProject "u-1" t2024 t2024).2.1
        (ProjectRepository.Create DB.fresh demoProject "u-1" t2024 t2024).1.ID =
      (none, some (.wrap "failed to get project" (.scan 5 "created_at" "int64" "*time.Time"))) := by
  refine ⟨by decide, by decide, by decide, by decide⟩

/-- Create inserts the identifier the caller supplies: a project whose name is
new but whose identifier is already stored is rejected by the primary key of
table `projects`, and the store stays as it was. -/
theorem create_reused_id_rejected :
    dbAlpha.fault = none ∧
    (∀ r ∈ dbAlpha.projects, r.name ≠ betaReusingID.Name) ∧
    (ProjectRepository.Create dbAlpha betaReusingID "u-1" t2024 t2024).2.2 =
      some (Error.constraint "UNIQUE constraint failed: projects.id") ∧
    (ProjectRepository.Create dbAlpha betaReusingID "u-1" t2024 t2024).2.1 = dbAlpha := by
  refine ⟨rfl, ?_, ?_, ?_⟩
  · intro r hr
    simp [dbAlpha] at hr
    subst hr
    decide
  · decide
  · decide

/-- On a working store, Create of a project whose name and identifier (p.ID, or
the generated one when p.ID is empty) are not yet stored returns no error,
leaves that identifier in p, and appends exactly one row: that identifier, the
Name, Path, port and ProjectType of p, the creation time of p (the clock
reading when unset) and the clock reading as update time, both in Unix
seconds. -/
theorem create_project_stores_row (db : DB) (p : Project) (newID : String) (t₁ t₂ : Time)
    (hdb : db.fault = none)
    (hname : ∀ r ∈ db.projects, r.name ≠ p.Name)
    (hid : ∀ r ∈ db.projects, r.id ≠ (if p.ID = "" then newID else p.ID)) :
    (ProjectRepository.Create db p newID t₁ t₂).2.2 = none ∧
    (ProjectRepository.Create db p newID t₁ t₂).1.ID = (if p.ID = "" then newID else p.ID) ∧
    (ProjectRepository.Create db p newID t₁ t₂).2.1 =
      { db with projects := db.projects ++
          [{ id := if p.ID = "" then newID else p.ID, name := p.Name, path := p.Path,
             opencode_port := p.opencodePort, project_type := p.ProjectType,
             created_at := (if p.CreatedAt.IsZero then t₁ else p.CreatedAt).Unix,
             updated_at := t₂.Unix }] } := by
  have hid' : ∀ r ∈ db.projects,
      decide (r.id = (if p.ID = "" then newID else p.ID)) = false := by
    intro r hr; simpa using hid r hr
  have hname' : ∀ r ∈ db.projects, decide (r.name = p.Name) = false := by
    intro r hr; simpa using hname r hr
  have hany1 := any_false_of_forall _ _ hid'
  have hany2 := any_false_of_forall _ _ hname'
  by_cases hp : p.ID = "" <;> by_cases hz : p.CreatedAt.IsZero = true <;>
    simp only [hp, if_true, if_false] at hid' hany1 ⊢ <;>
    simp [ProjectRepository.Create, DB.insertProject, hdb, hp, hz, hany1, hany2]

/-- Registering `demo` in the store that holds `alpha` appends its row. -/
theorem create_project_stores_row_witness :
    dbAlpha.fault = none ∧
    (∀ r ∈ dbAlpha.projects, r.name ≠ demoProject.Name) ∧
    (ProjectRepository.Create dbAlpha demoProject "u-1" t2024 t2024).2.2 = none ∧
    (ProjectRepository.Create dbAlpha demoProject "u-1" t2024 t2024).2.1.projects.map
      (fun r => (r.id, r.name)) = [("p-1", "alpha"), ("u-1", "demo")] :=
  have h := create_project_stores_row dbAlpha demoProject "u-1" t2024 t2024 rfl
    (by simp [dbAlpha, demoProject]) (by simp [dbAlpha, demoProject])
  ⟨rfl, by simp [dbAlpha, demoProject], h.1, by rw [h.2.2]; decide⟩

/-! ## C2 -/

/-- C2: on a working store, Create of a project whose name equals the name of a
stored project returns a constraint error and leaves the store exactly as it
was (no row is added, none is changed). -/
theorem c2_duplicate_name_rejected (db : DB) (p : Project) (newID : String) (t₁ t₂ : Time)
    (hdb : db.fault = none)
    (hdup : ∃ r ∈ db.projects, r.name = p.Name) :
    (∃ msg, (ProjectRepository.Create db p newID t₁ t₂).2.2 = some (Error.constraint msg)) ∧
    (ProjectRepository.Create db p newID t₁ t₂).2.1 = db := by
  have hany : db.projects.any (fun r => decide (r.name = p.Name)) = true := by
    obtain ⟨r, hr, hrn⟩ := hdup
    exact List.any_eq_true.mpr ⟨r, hr, by simpa using hrn⟩
  simp only [ProjectRepository.Create, DB.insertProject, hdb]
  split_ifs <;> simp_all

/-- Witness for C2: a second `alpha` is rejected and the store is untouched. -/
theorem c2_duplicate_name_rejected_witness :
    dbAlpha.fault = none ∧
    (∃ r ∈ dbAlpha.projects, r.name = alphaAgain.Name) ∧
    (∃ msg, (ProjectRepository.Create dbAlpha alphaAgain "u-1" t2024 t2024).2.2 =
      some (Error.constraint msg)) ∧
    (ProjectRepository.Create dbAlpha alphaAgain "u-1" t2024 t2024).2.1 = dbAlpha :=
  have hdup : ∃ r ∈ dbAlpha.projects, r.name = alphaAgain.Name := by
    simp [dbAlpha, alphaAgain]
  have h := c2_duplicate_name_rejected dbAlpha alphaAgain "u-1" t2024 t2024 rfl hdup
  ⟨rfl, hdup, h.1, h.2⟩

/-! ## C3 -/

/-- C3 on the code: in the store that holds project p-1 (`alpha`) and session
s-1, on a working connection, keys that match no row give the absent result
(nil, nil), but the stored keys p-1, `alpha` and s-1 make Get, GetByName and
SessionRepository.Get return an error although the store has not failed: Scan
cannot store the INTEGER column created_at into the time.Time field. -/
theorem c3_lookup_of_stored_key_errors :
    dbTwoSessions.fault = none ∧
    ProjectRepository.Get dbTwoSessions "p-9" = (none, none) ∧
    ProjectRepository.GetByName dbTwoSessions "omega" = (none, none) ∧
    SessionRepository.Get dbTwoSessions "s-9" = (none, none) ∧
    ProjectRepository.Get dbTwoSessions "p-1" =
      (none, some (.wrap "failed to get project" (.scan 5 "created_at" "int64" "*time.Time"))) ∧
    ProjectRepository.GetByName dbTwoSessions "alpha" =
      (none, some (.wrap "failed to get project" (.scan 5 "created_at" "int64" "*time.Time"))) ∧
    SessionRepository.Get dbTwoSessions "s-1" =
      (none, some (.wrap "failed to get session" (.scan 7 "created_at" "int64" "*time.Time"))) := by
  refine ⟨rfl, by decide, by decide, by decide, by decide, by decide, by decide⟩

/-- For an id or name that matches no row, ProjectRepository.Get,
ProjectRepository.GetByName and SessionRepository.Get return the absent result
(nil record, nil error) on a working store, and return an error exactly when
the connection itself has failed. -/
theorem lookup_absent_key (db : DB) (id name sid : String)
    (hid : ∀ r ∈ db.projects, r.id ≠ id)
    (hname : ∀ r ∈ db.projects, r.name ≠ name)
    (hsid : ∀ r ∈ db.sessions, r.id ≠ sid) :
    (db.fault = none →
      ProjectRepository.Get db id = (none, none) ∧
      ProjectRepository.GetByName db name = (none, none) ∧
      SessionRepository.Get db sid = (none, none)) ∧
    ((ProjectRepository.Get db id).2 ≠ none ↔ db.fault ≠ none) ∧
    ((ProjectRepository.GetByName db name).2 ≠ none ↔ db.fault ≠ none) ∧
    ((SessionRepository.Get db sid).2 ≠ none ↔ db.fault ≠ none) := by
  have h1 := find?_none_of_forall (fun r : ProjectRow => decide (r.id = id)) db.projects
    (fun r hr => by simpa using hid r hr)
  have h2 := find?_none_of_forall (fun r : ProjectRow => decide (r.name = name)) db.projects
    (fun r hr => by simpa using hname r hr)
  have h3 := find?_none_of_forall (fun r : SessionRow => decide (r.id = sid)) db.sessions
    (fun r hr => by simpa using hsid r hr)
  cases hf : db.fault with
  | none =>
    simp [ProjectRepository.Get, ProjectRepository.GetByName, SessionRepository.Get,
      DB.queryProjectRow, DB.querySessionRow, hf, h1, h2, h3, Except.bind]
  | some e =>
    simp [ProjectRepository.Get, ProjectRepository.GetByName, SessionRepository.Get,
      DB.queryProjectRow, DB.querySessionRow, hf, Except.bind]

/-- Unknown keys looked up in the store that holds `alpha`. -/
theorem lookup_absent_key_witness :
    ProjectRepository.Get dbAlpha "p-9" = (none, none) ∧
    ProjectRepository.GetByName dbAlpha "omega" = (none, none) ∧
    SessionRepository.Get dbAlpha "s-9" = (none, none) :=
  lookup_absent_key dbAlpha "p-9" "omega" "s-9"
    (by simp [dbAlpha]) (by simp [dbAlpha]) (by simp [dbAlpha]) |>.1 rfl

/-- On a working store every read that reaches a stored row fails with the
Scan error: Get and GetByName of a stored project, SessionRepository.Get of a
stored session, List on a non-empty projects table and ListByProject of a
project that has a session. -/
theorem read_of_stored_row_fails (db : DB) (id name sid pid : String)
    (hdb : db.fault = none)
    (hid : ∃ r ∈ db.projects, r.id = id)
    (hname : ∃ r ∈ db.projects, r.name = name)
    (hsid : ∃ r ∈ db.sessions, r.id = sid)
    (hpid : ∃ r ∈ db.sessions, r.project_id = pid) :
    ProjectRepository.Get db id = (none, some (.wrap "failed to get project" (.scan 5 "created_at" "int64" "*time.Time"))) ∧
    ProjectRepository.GetByName db name =
      (none, some (.wrap "failed to get project" (.scan 5 "created_at" "int64" "*time.Time"))) ∧
    SessionRepository.Get db sid = (none, some (.wrap "failed to get session" (.scan 7 "created_at" "int64" "*time.Time"))) ∧
    ProjectRepository.List db = ([], some (.wrap "failed to scan project" (.scan 5 "created_at" "int64" "*time.Time"))) ∧
    SessionRepository.ListByProject db pid =
      ([], some (.wrap "failed to scan session" (.scan 7 "created_at" "int64" "*time.Time"))) := by
  obtain ⟨r1, h1⟩ := find?_isSome_of_mem (fun r : ProjectRow => decide (r.id = id))
    db.projects (by obtain ⟨r, hr, h⟩ := hid; exact ⟨r, hr, by simpa using h⟩)
  obtain ⟨r2, h2⟩ := find?_isSome_of_mem (fun r : ProjectRow => decide (r.name = name))
    db.projects (by obtain ⟨r, hr, h⟩ := hname; exact ⟨r, hr, by simpa using h⟩)
  obtain ⟨r3, h3⟩ := find?_isSome_of_mem (fun r : SessionRow => decide (r.id = sid))
    db.sessions (by obtain ⟨r, hr, h⟩ := hsid; exact ⟨r, hr, by simpa using h⟩)
  refine ⟨?_, ?_, ?_, ?_, ?_⟩
  · simp [ProjectRepository.Get, DB.queryProjectRow, hdb, h1, Except.bind, scanProject_fails]
  · simp [ProjectRepository.GetByName, DB.queryProjectRow, hdb, h2, Except.bind,
      scanProject_fails]
  · simp [SessionRepository.Get, DB.querySessionRow, hdb, h3, Except.bind, scanSession_fails]
  · obtain ⟨r, hr, -⟩ := hid
    have hmem : r ∈ orderProjects db.projects :=
      (List.perm_insertionSort _ db.projects).mem_iff.mpr hr
    cases hs : orderProjects db.projects with
    | nil => rw [hs] at hmem; cases hmem
    | cons a as =>
      simp [ProjectRepository.List, DB.queryProjects, hdb, hs, scanProjects_cons]
  · obtain ⟨r, hr, hp⟩ := hpid
    have hmem : r ∈ orderSessions
        (db.sessions.filter (fun r => decide (r.project_id = pid))) :=
      (List.perm_insertionSort _ _).mem_iff.mpr
        (List.mem_filter.mpr ⟨hr, by simpa using hp⟩)
    cases hs : orderSessions (db.sessions.filter (fun r => decide (r.project_id = pid))) with
    | nil => rw [hs] at hmem; cases hmem
    | cons a as =>
      simp [SessionRepository.ListByProject, DB.querySessions, hdb, hs, scanSessions_cons]

/-- Reads of the stored keys of the two-session store. -/
theorem read_of_stored_row_fails_witness :
    dbTwoSessions.fault = none ∧
    (∃ r ∈ dbTwoSessions.projects, r.id = "p-1") ∧
    (ProjectRepository.Get dbTwoSessions "p-1").1 = none ∧
    (ProjectRepository.List dbTwoSessions).2 ≠ none :=
  have hid : ∃ r ∈ dbTwoSessions.projects, r.id = "p-1" := by decide
  have h := read_of_stored_row_fails dbTwoSessions "p-1" "alpha" "s-1" "p-1" rfl hid
    (by decide) (by decide) (by decide)
  ⟨rfl, hid, by rw [h.1], by rw [h.2.2.2.1]; simp⟩

/-! ## C4 -/

/-- C4 on the code: on an empty store List returns an empty sequence without
error; but after inserting three projects a, b, c with creation timestamps one
second apart (all three rows are stored), List returns no project and the
error `failed to scan project`: Scan of the first row cannot store the INTEGER
column created_at into the time.Time field. -/
theorem c4_list_fails_on_stored_projects :
    ProjectRepository.List DB.fresh = ([], none) ∧
    (∀ e ∈ (createAll DB.fresh spacedCalls).2, e = none) ∧
    (createAll DB.fresh spacedCalls).1.projects.map (fun r => (r.name, r.created_at)) =
      [("a", 1700000001), ("b", 1700000002), ("c", 1700000003)] ∧
    ProjectRepository.List (createAll DB.fresh spacedCalls).1 =
      ([], some (.wrap "failed to scan project" (.scan 5 "created_at" "int64" "*time.Time"))) := by
  refine ⟨by decide, by decide, by decide, by decide⟩

/-! ## C5 -/

/-- C5 on the code: in the two-session store UpdateStatus of s-1 to `active`
succeeds and changes the row as claimed (status `active`, update time the clock
reading, every other column and the row of s-2 as before), but the following
Get of s-1 returns no session and the error `failed to get session`: Scan
cannot store the INTEGER column created_at into the time.Time field. -/
theorem c5_get_after_update_status_fails :
    (SessionRepository.UpdateStatus dbTwoSessions "s-1" "active" (Time.ofUnix 1700000100)).2 =
      none ∧
    (SessionRepository.UpdateStatus dbTwoSessions "s-1" "active"
        (Time.ofUnix 1700000100)).1.sessions.map
      (fun r => (r.id, r.status, r.created_at, r.updated_at)) =
      [("s-1", "active", 1700000010, 1700000100), ("s-2", "active", 1700000020, 1700000025)] ∧
    SessionRepository.Get
      (SessionRepository.UpdateStatus dbTwoSessions "s-1" "active" (Time.ofUnix 1700000100)).1
      "s-1" = (none, some (.wrap "failed to get session" (.scan 7 "created_at" "int64" "*time.Time"))) := by
  refine ⟨by decide, by decide, by decide⟩

/-- On a working store UpdateStatus(id, s) returns no error for every id and
every string s; it sets status to s and the update time to the clock reading
(Unix seconds) in the rows whose identifier is id and leaves every other column
of those rows, every other session row, and the projects and worktrees tables
unchanged. -/
theorem update_status_rows (db : DB) (id s : String) (now : Time) (hdb : db.fault = none) :
    (SessionRepository.UpdateStatus db id s now).2 = none ∧
    (SessionRepository.UpdateStatus db id s now).1.sessions =
      db.sessions.map (fun r =>
        if r.id = id then
          { id := r.id, project_id := r.project_id, agent_type := r.agent_type,
            worktree_path := r.worktree_path, branch_name := r.branch_name, status := s,
            metadata := r.metadata, created_at := r.created_at, updated_at := now.Unix }
        else r) ∧
    (SessionRepository.UpdateStatus db id s now).1.projects = db.projects ∧
    (SessionRepository.UpdateStatus db id s now).1.worktrees = db.worktrees := by
  simp [SessionRepository.UpdateStatus, DB.updateSessionStatus, hdb]

/-- Session s-2 of the two-session store is cancelled; s-1 keeps its row. -/
theorem update_status_rows_witness :
    dbTwoSessions.fault = none ∧
    (SessionRepository.UpdateStatus dbTwoSessions "s-2" "cancelled" t2024).2 = none ∧
    (SessionRepository.UpdateStatus dbTwoSessions "s-2" "cancelled" t2024).1.sessions.map
      (fun r => (r.id, r.status)) = [("s-1", "created"), ("s-2", "cancelled")] :=
  have h := update_status_rows dbTwoSessions "s-2" "cancelled" t2024 rfl
  ⟨rfl, h.1, by rw [h.2.1]; decide⟩

/-! ## C6 -/

theorem find?_filter_of_imp {α : Type} (p q : α → Bool) (hpq : ∀ a, p a = true → q a = true)
    (l : List α) : (l.filter q).find? p = l.find? p := by
  induction l with
  | nil => rfl
  | cons a as ih =>
    by_cases hq : q a = true
    · by_cases hp : p a = true
      · simp [List.filter, List.find?, hq, hp]
      · simp only [Bool.not_eq_true] at hp
        simp [List.filter, List.find?, hq, hp, ih]
    · have hp : p a = false := by
        cases h : p a with
        | false => rfl
        | true => exact absurd (hpq a h) hq
      simp only [Bool.not_eq_true] at hq
      simp [List.filter, List.find?, hq, hp, ih]

/-- C6: on a working store, ProjectRepository.Delete(id) returns no error
whether or not a project with that id exists; afterwards Get(id) is absent,
Get of every other id returns what it returned before, and the sessions table
(including the sessions whose project_id equals id) and the worktrees table are
exactly as before: nothing cascades from projects to sessions. -/
theorem c6_delete_project_frame (db : DB) (id : String) (hdb : db.fault = none) :
    (ProjectRepository.Delete db id).2 = none ∧
    ProjectRepository.Get (ProjectRepository.Delete db id).1 id = (none, none) ∧
    (∀ other, other ≠ id →
      ProjectRepository.Get (ProjectRepository.Delete db id).1 other =
        ProjectRepository.Get db other) ∧
    (ProjectRepository.Delete db id).1.projects =
      db.projects.filter (fun r => decide (r.id ≠ id)) ∧
    (ProjectRepository.Delete db id).1.sessions = db.sessions ∧
    (∀ sid, SessionRepository.Get (ProjectRepository.Delete db id).1 sid =
      SessionRepository.Get db sid) ∧
    (SessionRepository.ListByProject (ProjectRepository.Delete db id).1 id =
      SessionRepository.ListByProject db id) ∧
    (ProjectRepository.Delete db id).1.worktrees = db.worktrees := by
  refine ⟨?_, ?_, ?_, ?_, ?_, ?_, ?_, ?_⟩
  · simp [ProjectRepository.Delete, DB.deleteProject, hdb]
  · simp only [ProjectRepository.Delete, DB.deleteProject, hdb, ProjectRepository.Get,
      DB.queryProjectRow]
    rw [find?_none_of_forall]
    · simp [Except.bind]
    · intro r hr
      have := (List.mem_filter.mp hr).2
      simpa using this
  · intro other hother
    simp only [ProjectRepository.Delete, DB.deleteProject, hdb, ProjectRepository.Get,
      DB.queryProjectRow]
    rw [find?_filter_of_imp]
    intro a ha
    have : a.id = other := by simpa using ha
    simpa [this] using hother
  · simp [ProjectRepository.Delete, DB.deleteProject, hdb]
  · simp [ProjectRepository.Delete, DB.deleteProject, hdb]
  · intro sid
    simp [ProjectRepository.Delete, DB.deleteProject, hdb, SessionRepository.Get,
      DB.querySessionRow]
  · simp [ProjectRepository.Delete, DB.deleteProject, hdb, SessionRepository.ListByProject,
      DB.querySessions]
  · simp [ProjectRepository.Delete, DB.deleteProject, hdb]

/-- Witness for C6: deleting project `p-1` keeps both of its sessions. -/
theorem c6_delete_project_frame_witness :
    dbTwoSessions.fault = none ∧
    (ProjectRepository.Delete dbTwoSessions "p-1").2 = none ∧
    ProjectRepository.Get (ProjectRepository.Delete dbTwoSessions "p-1").1 "p-1" = (none, none) ∧
    (ProjectRepository.Delete dbTwoSessions "p-1").1.sessions = dbTwoSessions.sessions :=
  have h := c6_delete_project_frame dbTwoSessions "p-1" rfl
  ⟨rfl, h.1, h.2.1, h.2.2.2.2.1⟩

/-! ## C7 -/

/-- C7 on the code: after registering project `demo` in an empty store and
creating one session for it with status `created` (both calls succeed and the
session row is stored with that project id and status), ListByProject of the
project returns no session and the error `failed to scan session`: Scan cannot
store the INTEGER column created_at into the time.Time field.  For a project
without sessions it returns the empty sequence and no error. -/
theorem c7_list_by_project_fails :
    (ProjectRepository.Create DB.fresh demoProject "u-1" t2024 t2024).2.2 = none ∧
    (SessionRepository.Create (ProjectRepository.Create DB.fresh demoProject "u-1" t2024 t2024).2.1
      (demoSession "u-1") "u-2" t2024 t2024).2.2 = none ∧
    (SessionRepository.Create (ProjectRepository.Create DB.fresh demoProject "u-1" t2024 t2024).2.1
      (demoSession "u-1") "u-2" t2024 t2024).2.1.sessions.map
        (fun r => (r.id, r.project_id, r.agent_type, r.status)) =
      [("u-2", "u-1", "coder", "created")] ∧
    SessionRepository.ListByProject
      (SessionRepository.Create (ProjectRepository.Create DB.fresh demoProject "u-1" t2024 t2024).2.1
        (demoSession "u-1") "u-2" t2024 t2024).2.1 "u-1" =
      ([], some (.wrap "failed to scan session" (.scan 7 "created_at" "int64" "*time.Time"))) ∧
    SessionRepository.ListByProject
      (SessionRepository.Create (ProjectRepository.Create DB.fresh demoProject "u-1" t2024 t2024).2.1
        (demoSession "u-1") "u-2" t2024 t2024).2.1 "p-9" = ([], none) := by
  refine ⟨by decide, by decide, by decide, by decide, by decide⟩

/-! ## C8 -/

/-- C8, as stated, fails: an Update of project p-1 that carries the name of
project p-2 is rejected by the UNIQUE constraint on `name`; the row with
identifier p-1 is not overwritten. -/
theorem c8_update_to_taken_name_rejected :
    dbAlphaBeta.fault = none ∧
    (∃ r ∈ dbAlphaBeta.projects, r.id = renameAlphaToBeta.ID) ∧
    (ProjectRepository.Update dbAlphaBeta renameAlphaToBeta t2024).2 =
      some (Error.constraint "UNIQUE constraint failed: projects.name") ∧
    (ProjectRepository.Update dbAlphaBeta renameAlphaToBeta t2024).1 = dbAlphaBeta ∧
    (ProjectRepository.Update dbAlphaBeta renameAlphaToBeta t2024).1.projects.map
      (fun r => (r.id, r.name, r.path)) =
      [("p-1", "alpha", "/srv/alpha"), ("p-2", "beta", "/srv/beta")] := by
  refine ⟨rfl, by decide, by decide, by decide, by decide⟩

/-- C8 (amended): on a working store, when no other row already carries the name
p.Name, Update(p) returns no error and overwrites name, path, port, project type
and update time of the row whose identifier is p.ID, leaving that row's
identifier and creation time, every other row, and the other tables unchanged;
when no row has identifier p.ID it returns no error and the store is unchanged,
whatever the name (no row is inserted, no identifier generated). -/
theorem c8_update_overwrites (db : DB) (p : Project) (now : Time)
    (hdb : db.fault = none) :
    ((∀ r ∈ db.projects, r.id ≠ p.ID → r.name ≠ p.Name) →
      (ProjectRepository.Update db p now).2 = none ∧
      (ProjectRepository.Update db p now).1.projects =
        db.projects.map (fun r => if r.id = p.ID then overwriteRow p now r else r) ∧
      (ProjectRepository.Update db p now).1.sessions = db.sessions ∧
      (ProjectRepository.Update db p now).1.worktrees = db.worktrees) ∧
    ((∀ r ∈ db.projects, r.id ≠ p.ID) →
      (ProjectRepository.Update db p now).2 = none ∧
      (ProjectRepository.Update db p now).1 = db) := by
  constructor
  · intro hname
    have hany : db.projects.any
        (fun r => decide (r.id ≠ p.ID) && decide (r.name = p.Name)) = false := by
      apply any_false_of_forall
      intro r hr
      by_cases hrid : r.id = p.ID
      · simp [hrid]
      · simp [hrid, hname r hr hrid]
    simp only [ProjectRepository.Update, DB.updateProject, hdb, hany, Bool.and_false]
    simp [overwriteRow]
  · intro hid
    have hany : db.projects.any (fun r => decide (r.id = p.ID)) = false :=
      any_false_of_forall _ _ (fun r hr => by simpa using hid r hr)
    have hmap : db.projects.map (fun r =>
        if r.id = p.ID then
          { r with name := p.Name, path := p.Path, opencode_port := p.opencodePort,
                   project_type := p.ProjectType, updated_at := now.Unix }
        else r) = db.projects := by
      conv_rhs => rw [← List.map_id db.projects]
      apply List.map_congr_left
      intro r hr
      simp [hid r hr]
    simp only [ProjectRepository.Update, DB.updateProject, hdb, hany, Bool.false_and]
    simp only [Bool.false_eq_true, if_false, hmap, and_true, true_and]
    cases db
    simp_all

/-- Witness for C8 (amended): project p-1 is renamed to the unused name `gamma`. -/
theorem c8_update_overwrites_witness :
    (∀ r ∈ dbAlphaBeta.projects, r.id ≠ renameAlphaToGamma.ID → r.name ≠ renameAlphaToGamma.Name) ∧
    (ProjectRepository.Update dbAlphaBeta renameAlphaToGamma t2024).2 = none ∧
    (ProjectRepository.Update dbAlphaBeta renameAlphaToGamma t2024).1.projects.map
      (fun r => (r.id, r.name, r.path, r.created_at)) =
      [("p-1", "gamma", "/srv/moved", 1700000000), ("p-2", "beta", "/srv/beta", 1700000005)] :=
  have hname : ∀ r ∈ dbAlphaBeta.projects,
      r.id ≠ renameAlphaToGamma.ID → r.name ≠ renameAlphaToGamma.Name := by decide
  have h := (c8_update_overwrites dbAlphaBeta renameAlphaToGamma t2024 rfl).1 hname
  ⟨hname, h.1, by rw [h.2.1]; decide⟩

/-! ## C9 -/

/-- C9, as stated, fails: on a freshly migrated store, which holds no project,
Create of a session whose ProjectID is `ghost` returns no error and stores the
session; its project_id is the identifier of no stored project. -/
theorem c9_session_without_project_accepted :
    (DB.Migrate DB.fresh).2 = none ∧
    (∀ p ∈ (DB.Migrate DB.fresh).1.projects, p.id ≠ ghostSession.ProjectID) ∧
    (SessionRepository.Create (DB.Migrate DB.fresh).1 ghostSession "s-1" t2024 t2024).2.2 =
      none ∧
    (∃ r ∈ (SessionRepository.Create (DB.Migrate DB.fresh).1 ghostSession "s-1"
              t2024 t2024).2.1.sessions,
      r.project_id = "ghost" ∧
      ∀ p ∈ (SessionRepository.Create (DB.Migrate DB.fresh).1 ghostSession "s-1"
              t2024 t2024).2.1.projects, p.id ≠ r.project_id) := by
  refine ⟨rfl, by decide, by decide, by decide⟩

/-- C9 (amended): SessionRepository.Create does not consult the projects table
(table `sessions` declares no foreign key).  On a working store it returns a
constraint error exactly when the identifier of the session (session.ID, or the
generated one when that is empty) is already stored; otherwise it returns no
error, leaves the projects as they are and appends exactly one session row that
carries the project_id and the status as given, whether or not a project with
that identifier exists. -/
theorem c9_create_session_ignores_projects (db : DB) (x : Session) (newID : String)
    (t₁ t₂ : Time) (hdb : db.fault = none) :
    ((∃ msg, (SessionRepository.Create db x newID t₁ t₂).2.2 = some (Error.constraint msg)) ↔
      ∃ r ∈ db.sessions, r.id = (if x.ID = "" then newID else x.ID)) ∧
    ((∀ r ∈ db.sessions, r.id ≠ (if x.ID = "" then newID else x.ID)) →
      (SessionRepository.Create db x newID t₁ t₂).2.2 = none ∧
      (SessionRepository.Create db x newID t₁ t₂).2.1.projects = db.projects ∧
      (SessionRepository.Create db x newID t₁ t₂).2.1.sessions = db.sessions ++
        [{ id := if x.ID = "" then newID else x.ID, project_id := x.ProjectID,
           agent_type := x.AgentType, worktree_path := x.WorktreePath,
           branch_name := x.BranchName, status := x.Status, metadata := x.Metadata,
           created_at := (if x.CreatedAt.IsZero then t₁ else x.CreatedAt).Unix,
           updated_at := t₂.Unix }]) := by
  constructor
  · by_cases hany : db.sessions.any
        (fun r => decide (r.id = (if x.ID = "" then newID else x.ID))) = true
    · have hex : ∃ r ∈ db.sessions, r.id = (if x.ID = "" then newID else x.ID) := by
        obtain ⟨r, hr, hrid⟩ := List.any_eq_true.mp hany
        exact ⟨r, hr, by simpa using hrid⟩
      by_cases hx : x.ID = "" <;> by_cases hz : x.CreatedAt.IsZero = true <;>
        simp only [hx, if_true, if_false] at hany hex ⊢ <;>
        simp only [SessionRepository.Create, DB.insertSession, hdb, hx, hz, if_true, if_false,
          hany] <;>
        simp [hex]
    · have hnex : ¬ ∃ r ∈ db.sessions, r.id = (if x.ID = "" then newID else x.ID) := by
        rintro ⟨r, hr, hrid⟩
        exact hany (List.any_eq_true.mpr ⟨r, hr, by simpa using hrid⟩)
      simp only [Bool.not_eq_true] at hany
      by_cases hx : x.ID = "" <;> by_cases hz : x.CreatedAt.IsZero = true <;>
        simp only [hx, if_true, if_false] at hany hnex ⊢ <;>
        simp only [SessionRepository.Create, DB.insertSession, hdb, hx, hz, if_true, if_false,
          hany] <;>
        simp [hnex]
  · intro hid
    have hid' : ∀ r ∈ db.sessions,
        decide (r.id = (if x.ID = "" then newID else x.ID)) = false := by
      intro r hr; simpa using hid r hr
    have hany := any_false_of_forall _ _ hid'
    by_cases hx : x.ID = "" <;> by_cases hz : x.CreatedAt.IsZero = true <;>
      simp only [hx, if_true, if_false] at hid' hany ⊢ <;>
      simp [SessionRepository.Create, DB.insertSession, hdb, hx, hz, hany]

/-- Witness for C9 (amended): a session for project `ghost` enters the store
that holds only project `alpha`. -/
theorem c9_create_session_ignores_projects_witness :
    dbAlpha.fault = none ∧
    (∀ p ∈ dbAlpha.projects, p.id ≠ ghostSession.ProjectID) ∧
    (SessionRepository.Create dbAlpha ghostSession "s-1" t2024 t2024).2.2 = none ∧
    (SessionRepository.Create dbAlpha ghostSession "s-1" t2024 t2024).2.1.sessions.map
      (fun r => (r.id, r.project_id, r.status)) = [("s-1", "ghost", "created")] :=
  have h := (c9_create_session_ignores_projects dbAlpha ghostSession "s-1" t2024 t2024 rfl).2
    (by decide)
  ⟨rfl, by decide, h.1, by rw [h.2.2]; decide⟩

/-! ## C10 -/

/-- C10, as stated, fails: Create stores the status it is given and UpdateStatus
writes the string it is given; after creating one session with status `paused`
and moving another to `done`, both stored statuses lie outside the five
constants. -/
theorem c10_status_outside_the_five_stored :
    (runSessionOps DB.fresh offListOps).sessions.map (fun r => (r.id, r.status)) =
      [("s-1", "paused"), ("s-2", "done")] ∧
    "paused" ∉ sessionStatuses ∧ "done" ∉ sessionStatuses ∧
    ¬ ∀ r ∈ (runSessionOps DB.fresh offListOps).sessions, r.status ∈ sessionStatuses := by
  refine ⟨by decide, by decide, by decide, by decide⟩

/-- One call keeps every stored status inside a set that holds the status the
call passes. -/
theorem SessionOp.apply_status_mem (allowed : List String) (db : DB) (op : SessionOp)
    (hdb : ∀ r ∈ db.sessions, r.status ∈ allowed)
    (hop : ∀ s, op.status? = some s → s ∈ allowed) :
    ∀ r ∈ (op.apply db).sessions, r.status ∈ allowed := by
  cases op with
  | create session newID t₁ t₂ =>
    have hs : session.Status ∈ allowed := hop _ rfl
    intro r hr
    simp only [SessionOp.apply, SessionRepository.Create, DB.insertSession] at hr
    cases hf : db.fault with
    | some e => simp only [hf] at hr; exact hdb r hr
    | none =>
      simp only [hf] at hr
      split_ifs at hr
      all_goals first
        | exact hdb r hr
        | (simp only [List.mem_append, List.mem_singleton] at hr
           rcases hr with hr | hr
           · exact hdb r hr
           · subst hr; simpa using hs)
  | updateStatus id status now =>
    have hs : status ∈ allowed := hop _ rfl
    intro r hr
    simp only [SessionOp.apply, SessionRepository.UpdateStatus, DB.updateSessionStatus] at hr
    cases hf : db.fault with
    | some e => simp only [hf] at hr; exact hdb r hr
    | none =>
      simp only [hf, List.mem_map] at hr
      obtain ⟨a, ha, har⟩ := hr
      by_cases hid : a.id = id
      · simp only [hid, if_true] at har
        subst har
        exact hs
      · simp only [hid, if_false] at har
        subst har
        exact hdb a ha
  | delete id =>
    intro r hr
    simp only [SessionOp.apply, SessionRepository.Delete, DB.deleteSession] at hr
    cases hf : db.fault with
    | some e => simp only [hf] at hr; exact hdb r hr
    | none =>
      simp only [hf] at hr
      exact hdb r (List.mem_filter.mp hr).1

/-- C10 (amended): the repository stores whatever status string it is handed.
In every store state reached from a store whose session statuses are among the
five constants through Create, UpdateStatus and Delete calls that are each
handed one of the five constants created, active, completed, error, cancelled,
the status of every stored session is one of the five. -/
theorem c10_status_invariant_when_callers_validate (db : DB) (ops : List SessionOp)
    (hdb : ∀ r ∈ db.sessions, r.status ∈ sessionStatuses)
    (hops : ∀ op ∈ ops, ∀ s, op.status? = some s → s ∈ sessionStatuses) :
    ∀ r ∈ (runSessionOps db ops).sessions, r.status ∈ sessionStatuses := by
  induction ops generalizing db with
  | nil => simpa [runSessionOps] using hdb
  | cons op ops ih =>
    have hstep := SessionOp.apply_status_mem sessionStatuses db op hdb
      (hops op (List.mem_cons_self _ _))
    have := ih (op.apply db) hstep (fun o ho => hops o (List.mem_cons_of_mem _ ho))
    simpa [runSessionOps] using this

/-- Witness for C10 (amended): a session lifecycle that uses the constants only. -/
theorem c10_status_invariant_when_callers_validate_witness :
    (∀ op ∈ lifecycleOps, ∀ s, op.status? = some s → s ∈ sessionStatuses) ∧
    (runSessionOps DB.fresh lifecycleOps).sessions.map (fun r => (r.id, r.status)) =
      [("s-1", "completed")] ∧
    ∀ r ∈ (runSessionOps DB.fresh lifecycleOps).sessions, r.status ∈ sessionStatuses :=
  have hops : ∀ op ∈ lifecycleOps, ∀ s, op.status? = some s → s ∈ sessionStatuses := by
    intro op hop s hs
    simp only [lifecycleOps, List.mem_cons, List.mem_singleton, List.not_mem_nil,
      or_false] at hop
    rcases hop with h | h | h | h | h <;> subst h <;>
      simp only [SessionOp.status?, Option.some.injEq] at hs <;>
      first
        | (subst hs; decide)
        | exact absurd hs (by simp)
  ⟨hops, by decide,
    c10_status_invariant_when_callers_validate DB.fresh lifecycleOps (by simp [DB.fresh]) hops⟩

/-! ## C14 -/

theorem validateProjects_eq_none (ps : List ProjectConfig) :
    validateProjects ps = none ↔ ∀ p ∈ ps, p.Name ≠ "" ∧ p.Path ≠ "" := by
  induction ps with
  | nil => simp [validateProjects]
  | cons p ps ih =>
    by_cases hn : p.Name = ""
    · simp [validateProjects, hn]
    · by_cases hp : p.Path = ""
      · simp [validateProjects, hn, hp]
      · simp [validateProjects, hn, hp, ih]

/-- C14: for every Config c, Validate returns no error if and only if
c.Server.HTTPPort and c.Server.WSPort both lie in 1..65535, c.Database.Path is
non-empty, and every entry of c.Projects has a non-empty Name and a non-empty
Path; and DefaultConfig() passes Validate. -/
theorem c14_validate_iff (c : Config) :
    (c.Validate = none ↔
      (1 ≤ c.Server.HTTPPort ∧ c.Server.HTTPPort ≤ 65535) ∧
      (1 ≤ c.Server.WSPort ∧ c.Server.WSPort ≤ 65535) ∧
      c.Database.Path ≠ "" ∧
      ∀ p ∈ c.Projects, p.Name ≠ "" ∧ p.Path ≠ "") ∧
    DefaultConfig.Validate = none := by
  refine ⟨?_, by decide⟩
  unfold Config.Validate
  by_cases h1 : c.Server.HTTPPort ≤ 0 ∨ c.Server.HTTPPort > 65535
  · rw [if_pos h1]
    constructor
    · intro h; cases h
    · rintro ⟨⟨ha, hb⟩, -⟩
      omega
  · rw [if_neg h1]
    by_cases h2 : c.Server.WSPort ≤ 0 ∨ c.Server.WSPort > 65535
    · rw [if_pos h2]
      constructor
      · intro h; cases h
      · rintro ⟨-, ⟨ha, hb⟩, -⟩
        omega
    · rw [if_neg h2]
      by_cases h3 : c.Database.Path = ""
      · rw [if_pos h3]
        constructor
        · intro h; cases h
        · rintro ⟨-, -, hp, -⟩
          exact absurd h3 hp
      · rw [if_neg h3, validateProjects_eq_none]
        constructor
        · intro h
          exact ⟨by omega, by omega, h3, h⟩
        · rintro ⟨-, -, -, h⟩
          exact h

/-! ## C11 -/

/-- C11 on the code: for the default store path `~/.mimir/mimir.db` and home
directory `/home/u`, Init resolves the path to `/home/u/.mimir/mimir.db` and
opens the database there, but the one directory it asks the system to create
is `/home/u/.mimir/mimir.d` (the resolved path without its last byte), not the
containing directory `/home/u/.mimir` the claim names. -/
theorem c11_init_creates_path_minus_last_byte :
    expandPath envHomeU DefaultConfig.Database.Path = "/home/u/.mimir/mimir.db" ∧
    (Init envHomeU DefaultConfig.Database).result = .ok "/home/u/.mimir/mimir.db" ∧
    mkdirCalls (Init envHomeU DefaultConfig.Database).effects = ["/home/u/.mimir/mimir.d"] ∧
    containingDir (expandPath envHomeU DefaultConfig.Database.Path) = "/home/u/.mimir" ∧
    containingDir (expandPath envHomeU DefaultConfig.Database.Path) ∉
      mkdirCalls (Init envHomeU DefaultConfig.Database).effects := by
  refine ⟨by decide, by rfl, by decide, by decide, by decide⟩

/-! ## C12 -/

/-- C12, as stated, fails: on a freshly migrated store, Create with an empty
Path stores a project with an empty path, and Update with an empty Path
overwrites a stored path with the empty string. -/
theorem c12_empty_path_stored :
    (DB.Migrate DB.fresh).2 = none ∧
    (runProjectOps (DB.Migrate DB.fresh).1 emptyPathOps).projects.map
      (fun r => (r.id, r.path)) = [("p-1", ""), ("p-2", "")] ∧
    ¬ ∀ r ∈ (runProjectOps (DB.Migrate DB.fresh).1 emptyPathOps).projects, r.path ≠ "" := by
  refine ⟨rfl, by decide, by decide⟩

/-- One call keeps every stored path non-empty when the path it passes is
non-empty. -/
theorem ProjectOp.apply_path_ne_empty (db : DB) (op : ProjectOp)
    (hdb : ∀ r ∈ db.projects, r.path ≠ "")
    (hop : ∀ s, op.path? = some s → s ≠ "") :
    ∀ r ∈ (op.apply db).projects, r.path ≠ "" := by
  cases op with
  | create project newID t₁ t₂ =>
    have hs : project.Path ≠ "" := hop _ rfl
    intro r hr
    simp only [ProjectOp.apply, ProjectRepository.Create, DB.insertProject] at hr
    cases hf : db.fault with
    | some e => simp only [hf] at hr; exact hdb r hr
    | none =>
      simp only [hf] at hr
      split_ifs at hr
      all_goals first
        | exact hdb r hr
        | (simp only [List.mem_append, List.mem_singleton] at hr
           rcases hr with hr | hr
           · exact hdb r hr
           · subst hr; simpa using hs)
  | update project now =>
    have hs : project.Path ≠ "" := hop _ rfl
    intro r hr
    simp only [ProjectOp.apply, ProjectRepository.Update, DB.updateProject] at hr
    cases hf : db.fault with
    | some e => simp only [hf] at hr; exact hdb r hr
    | none =>
      simp only [hf] at hr
      split_ifs at hr
      · exact hdb r hr
      · simp only [List.mem_map] at hr
        obtain ⟨a, ha, har⟩ := hr
        by_cases hid : a.id = project.ID
        · simp only [hid, if_true] at har
          subst har
          exact hs
        · simp only [hid, if_false] at har
          subst har
          exact hdb a ha
  | delete id =>
    intro r hr
    simp only [ProjectOp.apply, ProjectRepository.Delete, DB.deleteProject] at hr
    cases hf : db.fault with
    | some e => simp only [hf] at hr; exact hdb r hr
    | none =>
      simp only [hf] at hr
      exact hdb r (List.mem_filter.mp hr).1

/-- C12 (amended): the repository and the schema (path TEXT NOT NULL) accept the
empty string as a path.  In every store state reached from a store whose
projects all have a non-empty path through Create, Update and Delete calls in
which every Create and Update is given a non-empty Path, every stored project
has a non-empty path. -/
theorem c12_path_invariant_when_callers_validate (db : DB) (ops : List ProjectOp)
    (hdb : ∀ r ∈ db.projects, r.path ≠ "")
    (hops : ∀ op ∈ ops, ∀ s, op.path? = some s → s ≠ "") :
    ∀ r ∈ (runProjectOps db ops).projects, r.path ≠ "" := by
  induction ops generalizing db with
  | nil => simpa [runProjectOps] using hdb
  | cons op ops ih =>
    have hstep := ProjectOp.apply_path_ne_empty db op hdb (hops op (List.mem_cons_self _ _))
    have := ih (op.apply db) hstep (fun o ho => hops o (List.mem_cons_of_mem _ ho))
    simpa [runProjectOps] using this

/-- Witness for C12 (amended): a project lifecycle in which every path is set. -/
theorem c12_path_invariant_when_callers_validate_witness :
    (∀ op ∈ projectLifecycleOps, ∀ s, op.path? = some s → s ≠ "") ∧
    (runProjectOps (DB.Migrate DB.fresh).1 projectLifecycleOps).projects.map
      (fun r => (r.id, r.path)) = [("p-1", "/srv/demo")] ∧
    ∀ r ∈ (runProjectOps (DB.Migrate DB.fresh).1 projectLifecycleOps).projects, r.path ≠ "" :=
  have hops : ∀ op ∈ projectLifecycleOps, ∀ s, op.path? = some s → s ≠ "" := by
    intro op hop s hs
    simp only [projectLifecycleOps, List.mem_cons, List.mem_singleton, List.not_mem_nil,
      or_false] at hop
    rcases hop with h | h | h | h <;> subst h <;>
      simp only [ProjectOp.path?, Option.some.injEq] at hs <;>
      first
        | (subst hs; decide)
        | exact absurd hs (by simp)
  ⟨hops, by decide,
    c12_path_invariant_when_callers_validate (DB.Migrate DB.fresh).1 projectLifecycleOps
      (by simp [DB.Migrate, DB.fresh]) hops⟩

/-! ## C13 -/

/-- C13 on the code: the constants TypePython, TypeTypeScript, TypeRust and
TypeUnknown have the values python, typescript, rust and unknown, but TypeGo
has the value `golang`, not `go`; the value `go` is not among the five tags the
program defines. -/
theorem c13_type_go_is_golang :
    TypeGo = "golang" ∧ TypeGo ≠ "go" ∧
    TypePython = "python" ∧ TypeTypeScript = "typescript" ∧ TypeRust = "rust" ∧
    TypeUnknown = "unknown" ∧
    projectTypes = ["golang", "python", "typescript", "rust", "unknown"] ∧
    "go" ∉ projectTypes := by
  refine ⟨rfl, by decide, rfl, rfl, rfl, rfl, rfl, by decide⟩

end Mimir
